import Mathlib

/-!
Shallow embedding of the line-selection state machine of
`src/components/EditorTextArea.js`: the `useSelectedLine` hook (state,
fragment parsing and fragment writing), the `toggleSelected` closure, and
the `useLineNumberMagic` hook (gutter click routing, highlight decoration
and scroll requests).

Conventions of the embedding:
* JS strings are `List Char`.
* JS numbers holding line numbers are `Int` (exact; the empty-selection
  sentinel is `-1`); a `NaN` that can actually arise is represented by
  `none` in an `Option Int`.
* React state is passed explicitly: the `toggleSelected` closure becomes a
  function from the current selection to the next one, and the reactive
  effects become pure functions from the state to the request they issue.
* The Monaco editor is an external collaborator; the two pieces of its
  behaviour the component relies on (the normalizing `Range` constructor
  and the two reveal methods) are modelled from the Monaco editor API.
-/

/- Decimal digits: JS number printing and reading. -/

/-- The character of a decimal digit (for 0 ≤ n ≤ 9). -/
def digitChar (n : Nat) : Char := Char.ofNat (48 + n)

/-- Numeric value of a decimal digit character. -/
def digitVal (c : Char) : Nat := c.toNat - 48

/-- Value of a string of decimal digits, most significant first (what JS
`Number` computes on an all-digit string, idealized to exact integers). -/
def digitsToNat (l : List Char) : Nat := l.foldl (fun acc c => acc * 10 + digitVal c) 0

/-- Fuel-driven core of decimal printing (accumulates digits, least
significant first, so the accumulator ends up most significant first). -/
def natDigitsGo : Nat → Nat → List Char → List Char
  | 0, _, acc => acc
  | fuel + 1, n, acc =>
    if n < 10 then digitChar n :: acc
    else natDigitsGo fuel (n / 10) (digitChar (n % 10) :: acc)

/-- Decimal representation of a natural number. -/
def natDigits (n : Nat) : List Char := natDigitsGo (n + 1) n []

/-- JS number-to-string for integers, as in a template literal. -/
def intToStr (i : Int) : List Char :=
  if i < 0 then '-' :: natDigits i.natAbs else natDigits i.toNat

/-- True iff the list is a nonempty run of decimal digits (regex `\d+`). -/
def isDigits (l : List Char) : Bool := !l.isEmpty && l.all Char.isDigit

/-- JS `split('-')`: split a string at every `'-'` separator. -/
def splitOnDash : List Char → List (List Char)
  | [] => [[]]
  | c :: rest =>
    if c = '-' then [] :: splitOnDash rest
    else
      match splitOnDash rest with
      | [] => [[c]]
      | h :: t => (c :: h) :: t

/-- Test of the regular expression `^#L\d+(-\d+)?$` against a fragment
string (the guard of the `useState` initializer, line 212): the string is
`#L`, then one run of digits, then optionally a `-` and a second run. -/
def fragMatches (s : List Char) : Bool :=
  match s with
  | '#' :: 'L' :: rest =>
    match splitOnDash rest with
    | [d1] => isDigits d1
    | [d1, d2] => isDigits d1 && isDigits d2
    | _ => false
  | _ => false

/-- The `useState` initializer of `useSelectedLine` (lines 210-218): parse
`window.location.hash`.  On a regex match the hash is split after `#L` on
`'-'` and the parts are converted with `Number`; a missing second part
(`end` destructured as `undefined`, hence `isNaN(end)`) falls back to
`start`.  On no match the selection is the empty sentinel `(-1, -1)`. -/
def parseFragment (s : List Char) : Int × Int :=
  if fragMatches s then
    match splitOnDash (s.drop 2) with
    | [] => (-1, -1)
    | [d] => ((digitsToNat d : Int), (digitsToNat d : Int))
    | d1 :: d2 :: _ => ((digitsToNat d1 : Int), (digitsToNat d2 : Int))
  else (-1, -1)

/-- The fragment-write effect of `useSelectedLine` (lines 221-235): the
hash string handed to `history.replace` for a given selection. -/
def serializeFragment (sel : Int × Int) : List Char :=
  if sel.1 ≠ -1 then
    if sel.2 ≠ sel.1 then
      '#' :: 'L' :: (intToStr (min sel.1 sel.2) ++ '-' :: intToStr (max sel.1 sel.2))
    else
      '#' :: 'L' :: intToStr sel.1
  else []

/-- The `toggleSelected` closure (lines 238-247), with the captured state
`selected` and the event's `shiftKey` made explicit arguments. -/
def toggleSelected (sel : Int × Int) (lineNo : Int) (shift : Bool) : Int × Int :=
  if sel.1 = lineNo ∧ sel.2 = lineNo then (-1, -1)
  else if sel.1 = -1 ∨ shift = false then (lineNo, lineNo)
  else (sel.1, lineNo)

/-- Serialize a selection and parse the resulting fragment back. -/
def roundTrip (sel : Int × Int) : Int × Int := parseFragment (serializeFragment sel)

/-- The mount-time run of the fragment-write effect: React runs the effect
once for the freshly parsed state, so with no interaction the hash is
rewritten to the canonical serialization of what the initializer parsed. -/
def mountFragmentRewrite (hash : List Char) : List Char :=
  serializeFragment (parseFragment hash)

/-- The selection states the component can be in: the parse of some hash
string at mount, followed by any number of `toggleSelected` calls with
positive line numbers. -/
inductive Reachable : Int × Int → Prop
  | init (hash : List Char) : Reachable (parseFragment hash)
  | step (sel : Int × Int) (lineNo : Int) (shift : Bool) :
      Reachable sel → 0 < lineNo → Reachable (toggleSelected sel lineNo shift)

/- The Monaco-facing side of `useLineNumberMagic`. -/

/-- A Monaco `Range` (line/column pairs), as stored after construction. -/
structure MonacoRange where
  startLineNumber : Int
  startColumn : Int
  endLineNumber : Int
  endColumn : Int

/-- Monaco's `Range` constructor.  Modelled from the Monaco editor source
(`vs/editor/common/core/range.ts`): a descending pair of positions is
swapped, so a constructed `Range` always has start ≤ end. -/
def monacoRangeMk (sl sc el ec : Int) : MonacoRange :=
  if sl > el ∨ (sl = el ∧ sc > ec) then ⟨el, ec, sl, sc⟩
  else ⟨sl, sc, el, ec⟩

/-- The decoration range requested by the highlight effect of
`useLineNumberMagic` (lines 177-192), once editor and monaco are present:
`none` when the selection is empty (the effect returns early), otherwise
the whole-line range `new monaco.Range(selected[0], 1, selected[1], 1)`. -/
def highlightRange (sel : Int × Int) : Option MonacoRange :=
  if sel.1 = -1 then none
  else some (monacoRangeMk sel.1 1 sel.2 1)

/-- The two Monaco reveal methods the scroll branch can invoke. -/
inductive RevealCall where
  | revealLineInCenterIfOutsideViewport (lineNumber : Int)
  | revealLinesInCenterIfOutsideViewport (lineNumber : Int) (endLineNumber : Int)

deriving instance DecidableEq for RevealCall

/-- The scroll branch of the highlight effect (lines 194-199). -/
def scrollCall (sel : Int × Int) : Option RevealCall :=
  if sel.1 = -1 then none
  else if sel.1 = sel.2 then some (RevealCall.revealLineInCenterIfOutsideViewport sel.1)
  else some (RevealCall.revealLinesInCenterIfOutsideViewport sel.1 sel.2)

/-- Whether a reveal call re-centers the viewport when the target lies
outside it.  Modelled from the Monaco editor API: both
`revealLineInCenterIfOutsideViewport` and
`revealLinesInCenterIfOutsideViewport` scroll the revealed line(s) to the
vertical center of the viewport whenever they are outside it. -/
def centersViewport : RevealCall → Bool
  | RevealCall.revealLineInCenterIfOutsideViewport _ => true
  | RevealCall.revealLinesInCenterIfOutsideViewport _ _ => true

/- The DOM-facing side of `useLineNumberMagic`. -/

/-- The parts of a DOM click event the gutter listener looks at. -/
structure ClickEvent where
  hasTarget : Bool
  targetClasses : List (List Char)
  targetText : List Char
  shiftKey : Bool

/-- JS `parseInt` with no radix argument, on inputs without a hex prefix:
skip leading whitespace, accept one optional sign, then read the longest
leading run of decimal digits; `none` models the `NaN` result produced
when no digit is found. -/
def jsParseInt (s : List Char) : Option Int :=
  let t := s.dropWhile (fun c => c == ' ' || c == '\t' || c == '\n' || c == '\r')
  match t with
  | '-' :: rest =>
    let ds := rest.takeWhile Char.isDigit
    if ds.isEmpty then none else some (-(digitsToNat ds : Int))
  | '+' :: rest =>
    let ds := rest.takeWhile Char.isDigit
    if ds.isEmpty then none else some ((digitsToNat ds : Int))
  | _ =>
    let ds := t.takeWhile Char.isDigit
    if ds.isEmpty then none else some ((digitsToNat ds : Int))

/-- The gutter click listener (lines 158-173): `toggleSelected` is invoked
exactly when the event has a target whose `classList` contains
`line-numbers`, and then with `parseInt(target.textContent)` as the line
argument.  `none` means no invocation; `some v` means an invocation with
argument `v`, where `v = none` stands for `NaN`. -/
def gutterClickRoute (e : ClickEvent) : Option (Option Int) :=
  if e.hasTarget ∧ ("line-numbers".data) ∈ e.targetClasses then
    some (jsParseInt e.targetText)
  else none

/-- Serialization as the specification words it (kept separate from
`serializeFragment`, which follows the source): empty when `a = -1`, else
`#L<start>` when `start = end` and `#L<start>-<end>` otherwise, with
`start = min a b` and `end = max a b`. -/
def serializeFragmentSpec (a b : Int) : List Char :=
  if a = -1 then []
  else if min a b = max a b then '#' :: 'L' :: intToStr (min a b)
  else '#' :: 'L' :: (intToStr (min a b) ++ '-' :: intToStr (max a b))

/- Helper lemmas about decimal printing and parsing. -/

theorem digitsToNat_append (l : List Char) (c : Char) :
    digitsToNat (l ++ [c]) = digitsToNat l * 10 + digitVal c := by
  simp [digitsToNat, List.foldl_append]

theorem digitVal_digitChar (n : Nat) (h : n < 10) : digitVal (digitChar n) = n := by
  interval_cases n <;> decide

theorem digitChar_isDigit (n : Nat) (h : n < 10) : (digitChar n).isDigit = true := by
  interval_cases n <;> decide

theorem natDigitsGo_spec (fuel : Nat) : ∀ (n : Nat) (acc : List Char), n < fuel →
    ∃ ds : List Char, natDigitsGo fuel n acc = ds ++ acc ∧ ds ≠ [] ∧
      (∀ c ∈ ds, c.isDigit = true) ∧ digitsToNat ds = n := by
  induction fuel with
  | zero => intro n acc h; omega
  | succ fuel ih =>
    intro n acc h
    by_cases h10 : n < 10
    · refine ⟨[digitChar n], by simp [natDigitsGo, h10], by simp, ?_, ?_⟩
      · intro c hc
        rw [List.mem_singleton] at hc
        subst hc
        exact digitChar_isDigit n h10
      · simpa [digitsToNat] using digitVal_digitChar n h10
    · have hdiv : n / 10 < fuel := by omega
      obtain ⟨ds, heq, hne, hdig, hval⟩ := ih (n / 10) (digitChar (n % 10) :: acc) hdiv
      refine ⟨ds ++ [digitChar (n % 10)], ?_, by simp, ?_, ?_⟩
      · simp [natDigitsGo, h10, heq]
      · intro c hc
        rcases List.mem_append.mp hc with hc | hc
        · exact hdig c hc
        · rw [List.mem_singleton] at hc
          subst hc
          exact digitChar_isDigit _ (Nat.mod_lt _ (by omega))
      · rw [digitsToNat_append, hval, digitVal_digitChar _ (Nat.mod_lt _ (by omega))]
        omega

theorem natDigits_spec (n : Nat) :
    isDigits (natDigits n) = true ∧ digitsToNat (natDigits n) = n := by
  obtain ⟨ds, heq, hne, hdig, hval⟩ := natDigitsGo_spec (n + 1) n [] (by omega)
  have hds : natDigits n = ds := by simpa [natDigits] using heq
  rw [hds]
  refine ⟨?_, hval⟩
  simp [isDigits, List.all_eq_true]
  exact ⟨hne, hdig⟩

theorem isDigits_no_dash (d : List Char) (h : isDigits d = true) : ∀ c ∈ d, c ≠ '-' := by
  intro c hc hdash
  simp [isDigits, List.all_eq_true] at h
  have := h.2 c hc
  subst hdash
  simp at this

theorem splitOnDash_no_dash (l : List Char) (h : ∀ c ∈ l, c ≠ '-') :
    splitOnDash l = [l] := by
  induction l with
  | nil => rfl
  | cons c rest ih =>
    have hc : c ≠ '-' := h c (by simp)
    have hr : splitOnDash rest = [rest] := ih (fun x hx => h x (by simp [hx]))
    simp [splitOnDash, hc, hr]

theorem splitOnDash_append_dash (d1 d2 : List Char) (h1 : ∀ c ∈ d1, c ≠ '-')
    (h2 : ∀ c ∈ d2, c ≠ '-') : splitOnDash (d1 ++ '-' :: d2) = [d1, d2] := by
  induction d1 with
  | nil => simp [splitOnDash, splitOnDash_no_dash d2 h2]
  | cons c rest ih =>
    have hc : c ≠ '-' := h1 c (by simp)
    have hr := ih (fun x hx => h1 x (by simp [hx]))
    simp [splitOnDash, hc, hr]

theorem parseFragment_single (d : List Char) (h : isDigits d = true) :
    parseFragment ('#' :: 'L' :: d) = ((digitsToNat d : Int), (digitsToNat d : Int)) := by
  have hsplit : splitOnDash d = [d] := splitOnDash_no_dash d (isDigits_no_dash d h)
  simp [parseFragment, fragMatches, hsplit, h]

theorem parseFragment_range (d1 d2 : List Char) (h1 : isDigits d1 = true)
    (h2 : isDigits d2 = true) :
    parseFragment ('#' :: 'L' :: (d1 ++ '-' :: d2)) =
      ((digitsToNat d1 : Int), (digitsToNat d2 : Int)) := by
  have hsplit := splitOnDash_append_dash d1 d2 (isDigits_no_dash d1 h1) (isDigits_no_dash d2 h2)
  simp [parseFragment, fragMatches, hsplit, h1, h2]

theorem parseFragment_no_match (s : List Char) (h : fragMatches s = false) :
    parseFragment s = (-1, -1) := by
  simp [parseFragment, h]

theorem parseFragment_cases (s : List Char) :
    parseFragment s = (-1, -1) ∨ (0 ≤ (parseFragment s).1 ∧ 0 ≤ (parseFragment s).2) := by
  unfold parseFragment
  split
  · split
    · left
      rfl
    · right
      exact ⟨Int.natCast_nonneg _, Int.natCast_nonneg _⟩
    · right
      exact ⟨Int.natCast_nonneg _, Int.natCast_nonneg _⟩
  · left
    rfl

/- Claim theorems. -/

/-- Claim C1: the toggle operation follows exactly the three-case policy in
guard order — (1) `a = b = line` clears the selection to `(-1, -1)`;
(2) otherwise `a = -1` or no shift replaces it with `(line, line)`;
(3) otherwise it extends to `(a, line)` keeping the anchor — and the three
guarded cases are mutually exclusive and exhaustive (for every selection,
hence in particular every reachable one, and every line number). -/
theorem toggle_three_cases (a b lineNo : Int) (shift : Bool) :
    ((a = lineNo ∧ b = lineNo) → toggleSelected (a, b) lineNo shift = (-1, -1)) ∧
    (¬(a = lineNo ∧ b = lineNo) ∧ (a = -1 ∨ shift = false) →
      toggleSelected (a, b) lineNo shift = (lineNo, lineNo)) ∧
    (¬(a = lineNo ∧ b = lineNo) ∧ ¬(a = -1 ∨ shift = false) →
      toggleSelected (a, b) lineNo shift = (a, lineNo)) ∧
    ((a = lineNo ∧ b = lineNo) ∨ (¬(a = lineNo ∧ b = lineNo) ∧ (a = -1 ∨ shift = false)) ∨
      (¬(a = lineNo ∧ b = lineNo) ∧ ¬(a = -1 ∨ shift = false))) ∧
    ¬((a = lineNo ∧ b = lineNo) ∧ (¬(a = lineNo ∧ b = lineNo) ∧ (a = -1 ∨ shift = false))) ∧
    ¬((a = lineNo ∧ b = lineNo) ∧ (¬(a = lineNo ∧ b = lineNo) ∧ ¬(a = -1 ∨ shift = false))) ∧
    ¬((¬(a = lineNo ∧ b = lineNo) ∧ (a = -1 ∨ shift = false)) ∧
      (¬(a = lineNo ∧ b = lineNo) ∧ ¬(a = -1 ∨ shift = false))) := by
  refine ⟨?_, ?_, ?_, ?_, ?_, ?_, ?_⟩
  · rintro ⟨h1, h2⟩
    simp [toggleSelected, h1, h2]
  · rintro ⟨hn, hor⟩
    unfold toggleSelected
    rw [if_neg hn, if_pos hor]
  · rintro ⟨hn, hnor⟩
    unfold toggleSelected
    rw [if_neg hn, if_neg hnor]
  · tauto
  · tauto
  · tauto
  · tauto

/-- Witness for C1: each of the three cases fires on a concrete input. -/
theorem toggle_three_cases_witness :
    toggleSelected (4, 4) 4 true = (-1, -1) ∧
    toggleSelected (-1, -1) 5 true = (5, 5) ∧
    toggleSelected (4, 4) 2 true = (4, 2) :=
  ⟨(toggle_three_cases 4 4 4 true).1 (by decide),
   (toggle_three_cases (-1) (-1) 5 true).2.1 (by decide),
   (toggle_three_cases 4 4 2 true).2.2.1 (by decide)⟩

/-- Claim C2: for every selection `(a, b)` the produced fragment is empty
when `a = -1`, and otherwise is `#L<start>` when `start = end` and
`#L<start>-<end>` when `start ≠ end`, where `start = min a b` and
`end = max a b`; the min/max normalization happens only at this boundary —
the stored state itself stays unnormalized (a reachable stored pair such
as `(4, 2)` differs from its min/max form yet serializes to `#L2-4`). -/
theorem serializeFragment_matches_spec :
    (∀ a b : Int, serializeFragment (a, b) = serializeFragmentSpec a b) ∧
    toggleSelected (4, 4) 2 true = (4, 2) ∧
    serializeFragment (4, 2) = ("#L2-4".data) ∧
    ((4 : Int), (2 : Int)) ≠ (min (4 : Int) 2, max (4 : Int) 2) := by
  refine ⟨?_, by decide, by decide, by decide⟩
  intro a b
  by_cases ha : a = -1
  · subst ha
    simp [serializeFragment, serializeFragmentSpec]
  · by_cases hab : b = a
    · subst hab
      simp [serializeFragment, serializeFragmentSpec, ha, min_self, max_self]
    · have hminmax : ¬(min a b = max a b) := by omega
      simp [serializeFragment, serializeFragmentSpec, ha, hab, hminmax]

/-- Claim C3: a fragment matching `^#L\d+(-\d+)?$` parses to
`(start, end)` with `end` defaulting to `start` when the `-<end>` part is
absent, and every non-matching fragment (including the empty one) parses
to `(-1, -1)` with no error. -/
theorem parseFragment_init_cases :
    (∀ d : List Char, isDigits d = true →
      parseFragment ('#' :: 'L' :: d) = ((digitsToNat d : Int), (digitsToNat d : Int))) ∧
    (∀ d1 d2 : List Char, isDigits d1 = true → isDigits d2 = true →
      parseFragment ('#' :: 'L' :: (d1 ++ '-' :: d2)) =
        ((digitsToNat d1 : Int), (digitsToNat d2 : Int))) ∧
    (∀ s : List Char, fragMatches s = false → parseFragment s = (-1, -1)) ∧
    parseFragment ("#L5".data) = (5, 5) ∧
    parseFragment ("#L3-9".data) = (3, 9) ∧
    parseFragment ("#Lxyz".data) = (-1, -1) ∧
    parseFragment ([]) = (-1, -1) :=
  ⟨parseFragment_single, parseFragment_range, parseFragment_no_match,
    by decide, by decide, by decide, by decide⟩

/-- Witness for C3: the digit-string hypotheses hold at `7`, and the parse
of `#L7` is `(7, 7)`. -/
theorem parseFragment_init_cases_witness :
    isDigits ("7".data) = true ∧
    parseFragment ('#' :: 'L' :: "7".data) =
      ((digitsToNat ("7".data) : Int), (digitsToNat ("7".data) : Int)) :=
  ⟨by decide, parseFragment_init_cases.1 ("7".data) (by decide)⟩

/-- Claim C4: the end-to-end scenario — from empty, a plain click on line 4
gives `(4, 4)` with fragment `#L4`; a shift-click on line 2 gives `(4, 2)`
with fragment `#L2-4`; a plain click on line 4 (an endpoint of the range,
not the sole selected line) gives `(4, 4)` again rather than collapsing. -/
theorem selection_scenario :
    toggleSelected (-1, -1) 4 false = (4, 4) ∧
    serializeFragment (4, 4) = ("#L4".data) ∧
    toggleSelected (4, 4) 2 true = (4, 2) ∧
    serializeFragment (4, 2) = ("#L2-4".data) ∧
    toggleSelected (4, 2) 4 false = (4, 4) := by decide

theorem roundTrip_eq (a b : Int) (ha : 0 ≤ a) (hb : 0 ≤ b) :
    roundTrip (a, b) = if a = b then (min a b, min a b) else (min a b, max a b) := by
  have hne : ¬(a = -1) := by omega
  by_cases hab : a = b
  · subst hab
    have hser : serializeFragment (a, a) = '#' :: 'L' :: natDigits a.toNat := by
      simp [serializeFragment, intToStr, hne, not_lt.mpr ha]
    obtain ⟨hdig, hval⟩ := natDigits_spec a.toNat
    unfold roundTrip
    rw [hser, parseFragment_single _ hdig, hval, Int.toNat_of_nonneg ha]
    simp
  · have hb' : ¬(b = a) := fun hx => hab hx.symm
    have hmin : (0 : Int) ≤ min a b := le_min ha hb
    have hmax : (0 : Int) ≤ max a b := le_trans ha (le_max_left a b)
    have hser : serializeFragment (a, b) =
        '#' :: 'L' :: (natDigits (min a b).toNat ++ '-' :: natDigits (max a b).toNat) := by
      simp [serializeFragment, intToStr, hne, hb', not_lt.mpr hmin, not_lt.mpr hmax]
    obtain ⟨hdig1, hval1⟩ := natDigits_spec (min a b).toNat
    obtain ⟨hdig2, hval2⟩ := natDigits_spec (max a b).toNat
    unfold roundTrip
    rw [hser, parseFragment_range _ _ hdig1 hdig2, hval1, hval2,
      Int.toNat_of_nonneg hmin, Int.toNat_of_nonneg hmax, if_neg hab]

/-- Claim C5: serializing a non-empty selection `(a, b)` (components are
line numbers, so nonnegative) and re-parsing yields `(min a b, min a b)`
when `a = b` and `(min a b, max a b)` otherwise, and a second
serialize-then-parse pass leaves that result unchanged. -/
theorem roundTrip_idempotent (a b : Int) (ha : 0 ≤ a) (hb : 0 ≤ b) :
    roundTrip (a, b) = (if a = b then (min a b, min a b) else (min a b, max a b)) ∧
    roundTrip (roundTrip (a, b)) = roundTrip (a, b) := by
  refine ⟨roundTrip_eq a b ha hb, ?_⟩
  rw [roundTrip_eq a b ha hb]
  by_cases hab : a = b
  · subst hab
    rw [if_pos rfl]
    rw [roundTrip_eq _ _ (le_min ha ha) (le_min ha ha)]
    simp
  · rw [if_neg hab]
    rw [roundTrip_eq _ _ (le_min ha hb) (le_trans ha (le_max_left a b))]
    have h1 : ¬(min a b = max a b) := by omega
    rw [if_neg h1]
    have h2 : min (min a b) (max a b) = min a b := by omega
    have h3 : max (min a b) (max a b) = max a b := by omega
    rw [h2, h3]

/-- Witness for C5: the round trip at the stored pair `(4, 2)`. -/
theorem roundTrip_idempotent_witness :
    (0 : Int) ≤ 4 ∧ (0 : Int) ≤ 2 ∧
    (roundTrip (4, 2) =
        (if (4 : Int) = 2 then (min (4 : Int) 2, min (4 : Int) 2)
         else (min (4 : Int) 2, max (4 : Int) 2)) ∧
      roundTrip (roundTrip (4, 2)) = roundTrip (4, 2)) :=
  ⟨by decide, by decide, roundTrip_idempotent 4 2 (by decide) (by decide)⟩

/-- Claim C6: for a non-empty selection `(a, b)` the highlight decoration
requested from the viewer spans exactly lines `min a b .. max a b` — the
`monaco.Range(a, 1, b, 1)` the effect builds is reordered by Monaco's
normalizing constructor even when the stored pair has `a > b`. -/
theorem highlightRange_ordered (a b : Int) (h : a ≠ -1) :
    (highlightRange (a, b)).map (fun r => (r.startLineNumber, r.endLineNumber)) =
      some (min a b, max a b) := by
  by_cases hab : a > b
  · have h1 : min a b = b := by omega
    have h2 : max a b = a := by omega
    simp [highlightRange, monacoRangeMk, h, hab, h1, h2]
  · have h1 : min a b = a := by omega
    have h2 : max a b = b := by omega
    have hba : ¬(b < a) := by omega
    simp [highlightRange, monacoRangeMk, h, hab, hba, h1, h2]

/-- Witness for C6: the reversed stored pair `(4, 2)` is decorated as lines
2 to 4. -/
theorem highlightRange_ordered_witness :
    ((4 : Int) ≠ -1) ∧
    (highlightRange (4, 2)).map (fun r => (r.startLineNumber, r.endLineNumber)) =
      some (min (4 : Int) 2, max (4 : Int) 2) :=
  ⟨by decide, highlightRange_ordered 4 2 (by decide)⟩

/-- Claim C7, corrected: every reachable selection is either the empty
sentinel `(-1, -1)` or has both components nonnegative (not necessarily
positive: the fragment `#L0` is accepted by the initializer's regex and
yields the reachable state `(0, 0)`). -/
theorem reachable_empty_or_nonneg (sel : Int × Int) (h : Reachable sel) :
    sel = (-1, -1) ∨ (0 ≤ sel.1 ∧ 0 ≤ sel.2) := by
  induction h with
  | init hash => exact parseFragment_cases hash
  | step s lineNo shift hs hpos ih =>
    unfold toggleSelected
    split
    · left
      rfl
    · rename_i hcase1
      split
      · right
        constructor
        · show (0 : Int) ≤ lineNo
          omega
        · show (0 : Int) ≤ lineNo
          omega
      · rename_i hcase2
        right
        push_neg at hcase2
        rcases ih with hE | hN
        · exact absurd (by rw [hE]) hcase2.1
        · refine ⟨hN.1, ?_⟩
          show (0 : Int) ≤ lineNo
          omega

/-- Witness for C7's amended invariant: the state parsed from `#L5` is
reachable and satisfies the invariant. -/
theorem reachable_empty_or_nonneg_witness :
    parseFragment ("#L5".data) = (-1, -1) ∨
      (0 ≤ (parseFragment ("#L5".data)).1 ∧ 0 ≤ (parseFragment ("#L5".data)).2) :=
  reachable_empty_or_nonneg _ (Reachable.init ("#L5".data))

/-- Counterexample to C7 as stated: `(0, 0)` is reachable — it is the parse
of the fragment `#L0`, which matches `^#L\d+(-\d+)?$` — yet it is neither
the empty sentinel nor a pair of positive (1-based) line numbers. -/
theorem reachable_zero_selection :
    Reachable (0, 0) ∧
      ¬(((0 : Int), (0 : Int)) = (-1, -1) ∨ (0 < (0 : Int) ∧ 0 < (0 : Int))) := by
  constructor
  · have h : parseFragment ("#L0".data) = (0, 0) := by decide
    exact h ▸ Reachable.init ("#L0".data)
  · decide

/-- Claim C8, corrected: for a non-empty selection the scroll branch calls
`revealLineInCenterIfOutsideViewport` when the two components are equal and
`revealLinesInCenterIfOutsideViewport` otherwise — and both variants
re-center the viewport when the target is outside it; there is no
non-centering multi-line reveal. -/
theorem scrollCall_both_center (a b : Int) (h : a ≠ -1) :
    scrollCall (a, b) = some (if a = b then RevealCall.revealLineInCenterIfOutsideViewport a
      else RevealCall.revealLinesInCenterIfOutsideViewport a b) ∧
    ∀ c, scrollCall (a, b) = some c → centersViewport c = true := by
  constructor
  · by_cases hab : a = b
    · subst hab
      simp [scrollCall, h]
    · simp [scrollCall, h, hab]
  · intro c hc
    cases c <;> rfl

/-- Witness for C8's amended statement at the selection `(2, 4)`. -/
theorem scrollCall_both_center_witness :
    ((2 : Int) ≠ -1) ∧
    (scrollCall (2, 4) = some (if (2 : Int) = 4 then RevealCall.revealLineInCenterIfOutsideViewport 2
        else RevealCall.revealLinesInCenterIfOutsideViewport 2 4) ∧
      ∀ c, scrollCall (2, 4) = some c → centersViewport c = true) :=
  ⟨by decide, scrollCall_both_center 2 4 (by decide)⟩

/-- Counterexample to C8 as stated: for the multi-line selection `(2, 4)`
the operation used is `revealLinesInCenterIfOutsideViewport`, which does
re-center the viewport when the lines are outside it. -/
theorem scrollCall_multiline_centers :
    scrollCall (2, 4) = some (RevealCall.revealLinesInCenterIfOutsideViewport 2 4) ∧
    centersViewport (RevealCall.revealLinesInCenterIfOutsideViewport 2 4) = true :=
  ⟨by decide, rfl⟩

/-- Claim C9, corrected: the gutter click handler invokes toggle exactly
when the event target exists and carries the `line-numbers` class; the
argument is then `parseInt` of the cell text, with no numeric validation —
non-numeric text still results in an invocation (with `NaN`).  Clicks whose
target is not a gutter cell never invoke toggle. -/
theorem gutterClickRoute_class_filter (e : ClickEvent) :
    (e.hasTarget ∧ ("line-numbers".data) ∈ e.targetClasses →
      gutterClickRoute e = some (jsParseInt e.targetText)) ∧
    (¬(e.hasTarget ∧ ("line-numbers".data) ∈ e.targetClasses) →
      gutterClickRoute e = none) := by
  unfold gutterClickRoute
  exact ⟨fun h => if_pos h, fun h => if_neg h⟩

/-- Witness for C9's amended statement: a gutter cell with text `42`
invokes toggle with the parsed number. -/
theorem gutterClickRoute_class_filter_witness :
    ((⟨true, [("line-numbers".data)], ("42".data), false⟩ : ClickEvent).hasTarget ∧
      ("line-numbers".data) ∈
        (⟨true, [("line-numbers".data)], ("42".data), false⟩ : ClickEvent).targetClasses) ∧
    gutterClickRoute ⟨true, [("line-numbers".data)], ("42".data), false⟩ =
      some (jsParseInt
        (⟨true, [("line-numbers".data)], ("42".data), false⟩ : ClickEvent).targetText) :=
  ⟨by decide, (gutterClickRoute_class_filter _).1 (by decide)⟩

/-- Counterexample to C9 as stated: a click whose target is a gutter cell
(`line-numbers` class) with the non-numeric text `xyz` does result in a
toggle invocation, and its line argument is `NaN` (`parseInt` finds no
digit). -/
theorem gutterClick_nonnumeric_invokes :
    gutterClickRoute ⟨true, [("line-numbers".data)], ("xyz".data), false⟩ = some none := by
  decide

/-- Claim C10: the fragment-write effect also runs for the initial parsed
state, so with no interaction the URL fragment is rewritten to the
canonical serialization: the non-matching `#Lfoo` is replaced by the empty
fragment, and the reversed-range `#L9-3` — accepted by the parser as
`(9, 3)` — is rewritten to the normalized `#L3-9`. -/
theorem mount_canonicalizes :
    parseFragment ("#Lfoo".data) = (-1, -1) ∧
    mountFragmentRewrite ("#Lfoo".data) = [] ∧
    parseFragment ("#L9-3".data) = (9, 3) ∧
    mountFragmentRewrite ("#L9-3".data) = ("#L3-9".data) := by decide

